import Mathlib

/-!
Shallow embedding of the fukinotou validated-file-loading library
(`src/fukinotou/*.py`) and proofs about its loading pipeline.

Conventions of the embedding:
* Filesystem paths are strings; the state of a path (missing file,
  directory, file with decoded content) is passed explicitly.
* The external record decoders (Python `csv.reader`, `json.loads`) and the
  pydantic schema validator are collaborators: the CSV decoder's output is
  passed in as a list of string-cell records, and JSON decoding / schema
  validation are function parameters returning `Except`.
* A raised Python exception is an `Except.error`; the distinct Python
  exception classes the loaders can raise are the constructors of
  `LoadException`.
-/

/-- Lower-level Python exceptions that a `LoadingError` can wrap as its
`original_exception` (`load_error.py` stores it; the loaders construct it
from `pydantic.ValidationError` or `json.JSONDecodeError`). -/
inductive PyError where
  | validationError (detail : String)
  | jsonDecodeError (detail : String)
deriving DecidableEq, Repr

/-- The exceptions raised by the loaders: `LoadingError` (from
`load_error.py`, carrying `error_message` and optional
`original_exception`) and Python's builtin `ValueError` (raised by
`JsonLoader.load` on a directory path, `json_loader.py` line 69). -/
inductive LoadException where
  | loadingError (errorMessage : String) (originalException : Option PyError)
  | valueError (message : String)
deriving DecidableEq, Repr

/-- `e` is a `LoadingError` (as opposed to some other exception class). -/
def LoadException.isLoadingError : LoadException → Bool
  | .loadingError _ _ => true
  | .valueError _ => false

/-- Equality of load outcomes is decidable, so concrete runs of the
loaders can be checked by evaluation. -/
instance {ε α : Type} [DecidableEq ε] [DecidableEq α] : DecidableEq (Except ε α) :=
  fun x y =>
    match x, y with
    | .error e, .error f =>
      if h : e = f then .isTrue (by rw [h]) else .isFalse (fun hc => h (Except.error.inj hc))
    | .ok a, .ok b =>
      if h : a = b then .isTrue (by rw [h]) else .isFalse (fun hc => h (Except.ok.inj hc))
    | .error _, .ok _ => .isFalse (fun hc => Except.noConfusion hc)
    | .ok _, .error _ => .isFalse (fun hc => Except.noConfusion hc)

/-- A Python `dict` with string keys, as an insertion-ordered association
list (Python dicts preserve insertion order; updating an existing key
keeps its position). -/
abbrev PyDict (α : Type) := List (String × α)

/-- `d[k] = v`: replace the value at `k` in place if present, else append. -/
def dictInsert {α : Type} (d : PyDict α) (k : String) (v : α) : PyDict α :=
  if d.any (fun kv => kv.1 = k) then
    d.map (fun kv => if kv.1 = k then (k, v) else kv)
  else
    d ++ [(k, v)]

/-- `d.get(k)`: first value stored under `k`, if any. -/
def dictLookup {α : Type} : PyDict α → String → Option α
  | [], _ => none
  | kv :: rest, k => if kv.1 = k then some kv.2 else dictLookup rest k

/-- `list(d.keys())`. -/
def dictKeys {α : Type} (d : PyDict α) : List String :=
  d.map Prod.fst

/-- The field map handed to the schema validator: string keys, raw string
cell values (CSV). -/
abbrev FieldMap := PyDict String

/-- State of a single-file path at load time, with the decoded content of
the file when it is one: `α` is the record-decoder output for the format
(CSV: list of records; JSONL: list of physical lines; JSON: raw text). -/
inductive FileInput (α : Type) where
  | missing
  | directory
  | file (content : α)

/-! ## CSV loader (`csv_loader.py`) -/

/-- One row loaded from a CSV file (`CsvRowLoadResult`). -/
structure CsvRowLoadResult (T : Type) where
  path : String
  row : T
deriving DecidableEq, Repr

/-- Result of loading a whole CSV file (`CsvLoadResult`). -/
structure CsvLoadResult (T : Type) where
  path : String
  value : List (CsvRowLoadResult T)
deriving DecidableEq, Repr

/-- Drop leading whitespace characters from a character list. -/
def trimLeadWs : List Char → List Char
  | [] => []
  | c :: rest => if c.isWhitespace then trimLeadWs rest else c :: rest

/-- Python `str.strip()`: remove leading and trailing whitespace. -/
def pyStrip (s : String) : String :=
  ⟨(trimLeadWs (trimLeadWs s.data.reverse).reverse)⟩

/-- Lowercase one character (ASCII, which is what the compared file
extensions consist of). -/
def charLower (c : Char) : Char :=
  if c.toNat ≥ 65 ∧ c.toNat ≤ 90 then Char.ofNat (c.toNat + 32) else c

/-- Python `str.lower()`. -/
def pyLower (s : String) : String :=
  ⟨s.data.map charLower⟩

/-- `not any(cell.strip() for cell in row_data)`: the row is entirely
blank (every cell is empty after trimming); an empty record is blank. -/
def isBlankRow (rowData : List String) : Bool :=
  ! rowData.any (fun cell => pyStrip cell ≠ "")

/-- The `row_dict` built for one CSV data row (`csv_loader.py` lines
148-151): `for i, header in enumerate(headers): if i < len(row_data):
row_dict[header] = row_data[i]`. Cells beyond the headers are never read;
headers beyond the row's cells are left out of the dict. -/
def buildRowDict (headers rowData : List String) : FieldMap :=
  headers.enum.foldl
    (fun d ih =>
      if ih.1 < rowData.length then dictInsert d ih.2 (rowData.getD ih.1 "") else d)
    []

/-- The `for row_number, row_data in enumerate(reader, start=2)` loop of
`CsvLoader.load`: skip blank rows, validate each other row against the
model, abort with a `LoadingError` on the first validation failure. The
row counter advances on every physical record, skipped blanks included. -/
def csvLoadRows {T : Type} (model : FieldMap → Except String T) (headers : List String)
    (p : String) : List (List String) → Nat → Except LoadException (List (CsvRowLoadResult T))
  | [], _ => .ok []
  | rowData :: rest, rowNumber =>
    if isBlankRow rowData then
      csvLoadRows model headers p rest (rowNumber + 1)
    else
      match model (buildRowDict headers rowData) with
      | .error e =>
          .error (.loadingError s!"Error parsing row {rowNumber} in {p}: {e}"
            (some (.validationError e)))
      | .ok inst =>
          (csvLoadRows model headers p rest (rowNumber + 1)).map
            (fun rows => ⟨p, inst⟩ :: rows)

/-- `CsvLoader.load`: path checks, mandatory header record, then the row
loop (data numbering starts at 2 because the header occupies line 1). -/
def CsvLoader.load {T : Type} (model : FieldMap → Except String T) (p : String)
    (input : FileInput (List (List String))) : Except LoadException (CsvLoadResult T) :=
  match input with
  | .missing => .error (.loadingError s!"File not found: {p}" none)
  | .directory => .error (.loadingError s!"Input path is a directory: {p}" none)
  | .file records =>
    match records with
    | [] => .error (.loadingError s!"No headers found in {p}" none)
    | headers :: dataRows =>
        (csvLoadRows model headers p dataRows 2).map (fun rows => ⟨p, rows⟩)

/-- A tiny concrete schema validator used by examples and witnesses: the
record type is `Nat`, field `age` must be the literal text of a small
number. -/
def ageModel (d : FieldMap) : Except String Nat :=
  match dictLookup d "age" with
  | some "30" => .ok 30
  | some "25" => .ok 25
  | some _ => .error "not a number"
  | none => .error "missing age"

example :
    CsvLoader.load ageModel
      "f.csv" (.file [["name", "age"], ["Alice", "30"], ["", " "], ["Bob", "25"]])
    = .ok ⟨"f.csv", [⟨"f.csv", 30⟩, ⟨"f.csv", 25⟩]⟩ := by rfl

example :
    CsvLoader.load ageModel
      "f.csv" (.file [["name", "age"], ["", ""], ["Bob", "x"]])
    = .error (.loadingError "Error parsing row 3 in f.csv: not a number"
        (some (.validationError "not a number"))) := by rfl

/-! ## JSONL loader (`jsonl_loader.py`)

The file's contents are its physical lines (what iterating the Python
file object yields); `json.loads` is the collaborator parameter
`decode : String → Except String J` producing a decoded JSON object of
abstract type `J`, and `model.model_validate` is
`validate : J → Except String T`. -/

/-- One row loaded from a JSONL file (`JsonlRowLoadResult`). -/
structure JsonlRowLoadResult (T : Type) where
  path : String
  row : T
deriving DecidableEq, Repr

/-- Result of loading a whole JSONL file (`JsonlLoadResult`). -/
structure JsonlLoadResult (T : Type) where
  path : String
  value : List (JsonlRowLoadResult T)
deriving DecidableEq, Repr

/-- The `for lineno, line in enumerate(f, start=1)` loop of
`JsonlLoader.load`: strip each physical line, skip it when blank,
otherwise `json.loads` it and validate the object, aborting with a
`LoadingError` on the first decode or validation failure. The line
counter advances on every physical line, skipped blanks included. -/
def jsonlLoadLines {J T : Type} (decode : String → Except String J)
    (validate : J → Except String T) (p : String) :
    List String → Nat → Except LoadException (List (JsonlRowLoadResult T))
  | [], _ => .ok []
  | line :: rest, lineno =>
    if pyStrip line = "" then
      jsonlLoadLines decode validate p rest (lineno + 1)
    else
      match decode (pyStrip line) with
      | .error e =>
          .error (.loadingError s!"Error parsing JSON on line {lineno} of {p}: {e}"
            (some (.jsonDecodeError e)))
      | .ok obj =>
        match validate obj with
        | .error e =>
            .error (.loadingError s!"Error validating row {lineno} of {p}: {e}"
              (some (.validationError e)))
        | .ok parsed =>
            (jsonlLoadLines decode validate p rest (lineno + 1)).map
              (fun rows => ⟨p, parsed⟩ :: rows)

/-- `JsonlLoader.load`: path checks, then the line loop starting at
physical line 1 (a JSONL file has no header). -/
def JsonlLoader.load {J T : Type} (decode : String → Except String J)
    (validate : J → Except String T) (p : String)
    (input : FileInput (List String)) : Except LoadException (JsonlLoadResult T) :=
  match input with
  | .missing => .error (.loadingError s!"File not found: {p}" none)
  | .directory => .error (.loadingError s!"Input path is a directory: {p}" none)
  | .file lines =>
      (jsonlLoadLines decode validate p lines 1).map (fun rows => ⟨p, rows⟩)

/-! ## JSON single-file and directory loaders (`json_loader.py`) -/

/-- Result of loading one JSON file (`JsonLoadResult`). -/
structure JsonLoadResult (T : Type) where
  path : String
  value : T
deriving DecidableEq, Repr

/-- `JsonLoader.load`: existence check raising `LoadingError`, directory
check raising **`ValueError`** (`json_loader.py` line 69), then
`json.load` on the raw text and `model.model_validate` on the decoded
object, each failure wrapped into a `LoadingError` preserving the
original exception. -/
def JsonLoader.load {J T : Type} (decode : String → Except String J)
    (validate : J → Except String T) (p : String)
    (input : FileInput String) : Except LoadException (JsonLoadResult T) :=
  match input with
  | .missing => .error (.loadingError s!"File not found: {p}" none)
  | .directory => .error (.valueError s!"Input path is directory path: {p}")
  | .file rawText =>
    match decode rawText with
    | .error e =>
        .error (.loadingError s!"Error parsing JSON file {p}: {e}"
          (some (.jsonDecodeError e)))
    | .ok raw =>
      match validate raw with
      | .error e =>
          .error (.loadingError s!"Error validating JSON file {p}: {e}"
            (some (.validationError e)))
      | .ok parsed => .ok ⟨p, parsed⟩

/-! ## Path searcher (`path_handler/path_searcher.py`)

A model Path bundles the file's name with the raw text behind it (a
Python `Path` is a name that can later be opened); a directory's
immediate children are modelled as `FsNode`s, a child directory keeping
its own subtree so that the theorems can speak about files in
subdirectories. -/

/-- One entry of a filesystem subtree. -/
inductive FsNode where
  | fileN (name : String) (raw : String)
  | dirN (name : String) (children : List FsNode)

/-- What a searched / directory-loaded path points at. -/
inductive SearchTarget where
  | missing
  | fileT (name : String) (raw : String)
  | dirT (children : List FsNode)

/-- Index of the last `.` in a character list, if any. -/
def lastDotIndex : List Char → Option Nat
  | [] => none
  | c :: rest =>
    match lastDotIndex rest with
    | some i => some (i + 1)
    | none => if c = '.' then some 0 else none

/-- Python `pathlib.PurePath.suffix` on a file name: the part from the
last dot on, but empty when the dot is the first character or the last
one (`name[i:]` only when `0 < i < len(name) - 1`). -/
def pathSuffix (name : String) : String :=
  match lastDotIndex name.data with
  | none => ""
  | some i =>
    if 0 < i ∧ i < name.data.length - 1 then ⟨name.data.drop i⟩ else ""

example : pathSuffix "a.JSON" = ".JSON" := by rfl
example : pathSuffix "archive.json.bak" = ".bak" := by rfl
example : pathSuffix ".bashrc" = "" := by rfl
example : pathSuffix "README" = "" := by rfl

/-- `PathSearcher.search_file_paths_from_directory_path`: empty when the
path does not exist, the path itself when it is a file, otherwise the
files among the directory's immediate children (`iterdir` + `is_file`);
children that are directories are not descended into. -/
def PathSearcher.search_file_paths_from_directory_path
    (t : SearchTarget) : List (String × String) :=
  match t with
  | .missing => []
  | .fileT n raw => [(n, raw)]
  | .dirT children =>
    children.filterMap (fun c =>
      match c with
      | .fileN n raw => some (n, raw)
      | .dirN _ _ => none)

/-- Python `str.startswith`. -/
def pyStartsWith (s pre : String) : Bool :=
  s.data.take pre.data.length = pre.data

/-- Normalize one extension: prepend a dot when the extension is
non-empty and does not already start with one. -/
def normalizeExtension (extension : String) : String :=
  if extension ≠ "" ∧ ¬ pyStartsWith extension "." then "." ++ extension else extension

/-- `PathSearcher.search_specific_extension_paths_from_directory_path`:
all files of the directory whose suffix matches the one normalized
extension case-insensitively. -/
def PathSearcher.search_specific_extension_paths_from_directory_path
    (t : SearchTarget) (extension : String) : List (String × String) :=
  let allFiles := PathSearcher.search_file_paths_from_directory_path t
  let ext := normalizeExtension extension
  allFiles.filter (fun f => pyLower (pathSuffix f.1) = pyLower ext)

/-- `PathSearcher.search_specific_extensions_paths_from_directory_path`:
all files of the directory whose suffix matches any of the normalized
extensions case-insensitively. -/
def PathSearcher.search_specific_extensions_paths_from_directory_path
    (t : SearchTarget) (extensions : List String) : List (String × String) :=
  let allFiles := PathSearcher.search_file_paths_from_directory_path t
  let normalizedExtensions := extensions.map normalizeExtension
  allFiles.filter (fun f =>
    normalizedExtensions.any (fun ext => pyLower (pathSuffix f.1) = pyLower ext))

/-! ## JSON directory loader (`JsonsLoader`, `json_loader.py`) -/

/-- Result of loading a directory of JSON files (`JsonsLoadResult`). -/
structure JsonsLoadResult (T : Type) where
  directory_path : String
  value : List (JsonLoadResult T)
deriving DecidableEq, Repr

/-- The per-file loop of `JsonsLoader.load`: apply `JsonLoader.load` to
each searched file in order, `except LoadingError: continue` — a
`LoadingError` skips the file, any other exception would propagate. -/
def jsonsLoadFiles {J T : Type} (decode : String → Except String J)
    (validate : J → Except String T) :
    List (String × String) → Except LoadException (List (JsonLoadResult T))
  | [] => .ok []
  | nf :: rest =>
    match JsonLoader.load decode validate nf.1 (.file nf.2) with
    | .ok r => (jsonsLoadFiles decode validate rest).map (fun rs => r :: rs)
    | .error (.loadingError _ _) => jsonsLoadFiles decode validate rest
    | .error (.valueError m) => .error (.valueError m)

/-- `JsonsLoader.load`: directory checks, search for `.json` files among
the directory's entries, then the lenient per-file loop. -/
def JsonsLoader.load {J T : Type} (decode : String → Except String J)
    (validate : J → Except String T) (d : String)
    (t : SearchTarget) : Except LoadException (JsonsLoadResult T) :=
  match t with
  | .missing => .error (.loadingError s!"Directory not found: {d}" none)
  | .fileT _ _ => .error (.loadingError s!"Input path is not directory: {d}" none)
  | .dirT children =>
    (jsonsLoadFiles decode validate
        (PathSearcher.search_specific_extension_paths_from_directory_path
          (.dirT children) ".json")).map
      (fun rs => ⟨d, rs⟩)

/-! ## Tabular export (`csv_loader.py` `to_polars`,
`abstraction/dataframe_exportable.py`)

A polars DataFrame built from a list of row dictionaries is modelled by
those row dictionaries; its column names are the keys of the first row
(the schema polars infers), its height the number of rows. A cell is
either a model-field value (of abstract type `V`, what `model_dump`
produced) or the string a path was rendered to. -/

/-- One DataFrame cell. -/
inductive Cell (V : Type) where
  | ofV (v : V)
  | ofStr (s : String)
deriving DecidableEq, Repr

/-- A row-oriented model of a polars/pandas DataFrame. -/
structure DataFrame (V : Type) where
  records : List (PyDict (Cell V))
deriving DecidableEq, Repr

/-- Number of rows. -/
def DataFrame.height {V : Type} (df : DataFrame V) : Nat :=
  df.records.length

/-- Column names: the keys of the first record (`polars.DataFrame()` with
no data has no columns). -/
def DataFrame.columns {V : Type} (df : DataFrame V) : List String :=
  dictKeys (df.records.headD [])

/-- `df.with_columns(polars.lit(x).alias(name))`: give every row the
constant `x` under `name`, replacing an existing column in place or
appending a new one at the end. -/
def DataFrame.withColumnLit {V : Type} (df : DataFrame V) (name : String) (x : Cell V) :
    DataFrame V :=
  ⟨df.records.map (fun r => dictInsert r name x)⟩

/-- `row.row.model_dump()` lifted into DataFrame cells; `dump` is the
pydantic collaborator flattening a record into its field dict. -/
def dumpDict {T V : Type} (dump : T → PyDict V) (t : T) : PyDict (Cell V) :=
  (dump t).map (fun kv => (kv.1, Cell.ofV kv.2))

/-- `CsvLoadResult.to_polars` (`csv_loader.py` lines 50-59): empty result
for an empty collection; otherwise one record per row, and with
`include_path_as_column` a `path` column holding the string form of the
**collection's** path broadcast by `polars.lit`. -/
def CsvLoadResult.to_polars {T V : Type} (dump : T → PyDict V) (r : CsvLoadResult T)
    (include_path_as_column : Bool) : DataFrame V :=
  if r.value.isEmpty then ⟨[]⟩
  else
    let df : DataFrame V := ⟨r.value.map (fun row => dumpDict dump row.row)⟩
    if include_path_as_column then df.withColumnLit "path" (.ofStr r.path) else df

/-- A row as the `Row` protocol of
`abstraction/dataframe_exportable.py` sees it: a validated value plus
the source path of that row. -/
structure ProtocolRow (T : Type) where
  path : String
  value : T
deriving DecidableEq, Repr

/-- The state a `DataframeExportable` mixin instance exposes: the
collection's path and its rows. -/
structure DataframeExportable (T : Type) where
  path : String
  value : List (ProtocolRow T)
deriving DecidableEq, Repr

/-- `DataframeExportable._to_dicts`: one dict per row; with `use_path`,
`{**v.value.model_dump(), "path": str(v.path)}` — the **per-row** path
merged in after the model fields. -/
def DataframeExportable.to_dicts {T V : Type} (dump : T → PyDict V)
    (x : DataframeExportable T) (use_path : Bool) : List (PyDict (Cell V)) :=
  if !use_path then x.value.map (fun v => dumpDict dump v.value)
  else x.value.map (fun v => dictInsert (dumpDict dump v.value) "path" (.ofStr v.path))

/-- `DataframeExportable.to_polars`
(`abstraction/dataframe_exportable.py` lines 42-47): empty DataFrame for
an empty collection, else the DataFrame of `_to_dicts`. -/
def DataframeExportable.to_polars {T V : Type} (dump : T → PyDict V)
    (x : DataframeExportable T) (include_path_as_column : Bool) : DataFrame V :=
  if x.value.isEmpty then ⟨[]⟩
  else ⟨x.to_dicts dump include_path_as_column⟩

/-! ## File-handle events (§5 of the spec)

Each loader's use of its file handle is summarised as the sequence of
open/close events it performs on the exit path taken for the given
input. A `with p.open(...) as f:` block (CSV) emits `opened` on entry
and `closed` on every exit of the block, normal or exceptional. A bare
`f = p.open(...)` with no `close()`, `with`, or `finally` anywhere
(`json_loader.py` line 72, `jsonl_loader.py` line 130) emits only
`opened`: no path through those functions closes the handle. -/

/-- A file-handle event. -/
inductive ResourceEvent where
  | opened
  | closed
deriving DecidableEq, Repr

/-- Every handle opened was closed again. -/
def closesAllHandles (trace : List ResourceEvent) : Bool :=
  trace.count .opened = trace.count .closed

/-- Handle events of `CsvLoader.load`: nothing before the path checks
fail; once the file is opened the `with` block closes it on every exit
(success, the no-header raise, and the first-validation-failure raise
all leave the block). -/
def csvLoadEvents (input : FileInput (List (List String))) : List ResourceEvent :=
  match input with
  | .missing => []
  | .directory => []
  | .file _ => [.opened, .closed]

/-- Handle events of `JsonLoader.load`: `f = p.open("r", ...)` and no
close on any path — neither after `json.load`/validation succeed nor
when either raises. -/
def jsonLoadEvents (input : FileInput String) : List ResourceEvent :=
  match input with
  | .missing => []
  | .directory => []
  | .file _ => [.opened]

/-- Handle events of `JsonlLoader.load`: `f = p.open(mode="r", ...)`
inside a `try` whose only handler catches `FileNotFoundError`; no close
on the success path, and a `LoadingError` raised in the line loop
propagates without any cleanup. -/
def jsonlLoadEvents (input : FileInput (List String)) : List ResourceEvent :=
  match input with
  | .missing => []
  | .directory => []
  | .file _ => [.opened]

/-! ## Lemmas about the row loops -/

/-- If every record before `bad` is blank or validates, `bad` is not
blank and fails validation, the CSV row loop aborts at `bad` with a
`LoadingError` whose message carries the physical row number (the
counter having advanced over every earlier record, blanks included) and
whose cause is the validation error; no rows are returned. -/
theorem csvLoadRows_append_error {T : Type} (model : FieldMap → Except String T)
    (headers : List String) (p : String) (bad : List String)
    (rest : List (List String)) (msg : String) :
    ∀ (pre : List (List String)) (n m : Nat),
      (∀ r ∈ pre, isBlankRow r = true ∨ ∃ t, model (buildRowDict headers r) = .ok t) →
      isBlankRow bad = false →
      model (buildRowDict headers bad) = .error msg →
      m = n + pre.length →
      csvLoadRows model headers p (pre ++ bad :: rest) n =
        .error (.loadingError s!"Error parsing row {m} in {p}: {msg}"
          (some (.validationError msg))) := by
  intro pre
  induction pre with
  | nil =>
    intro n m _ hbad herr hm
    subst hm
    simp [csvLoadRows, hbad, herr]
  | cons r pre ih =>
    intro n m h hbad herr hm
    by_cases hb : isBlankRow r = true
    · have step : csvLoadRows model headers p ((r :: pre) ++ bad :: rest) n
          = csvLoadRows model headers p (pre ++ bad :: rest) (n + 1) := by
        simp [csvLoadRows, hb]
      rw [step]
      refine ih (n + 1) m (fun r' hr' => h r' (List.mem_cons_of_mem _ hr')) hbad herr ?_
      simp only [List.length_cons] at hm
      omega
    · rcases h r (List.mem_cons_self _ _) with h1 | ⟨t, ht⟩
      · exact absurd h1 hb
      · have step : csvLoadRows model headers p ((r :: pre) ++ bad :: rest) n
            = (csvLoadRows model headers p (pre ++ bad :: rest) (n + 1)).map
                (fun rows => ⟨p, t⟩ :: rows) := by
          simp [csvLoadRows, hb, ht]
        rw [step, ih (n + 1) m (fun r' hr' => h r' (List.mem_cons_of_mem _ hr')) hbad herr
          (by simp only [List.length_cons] at hm; omega)]
        rfl

/-- If every non-blank record validates (to `f` of the record), the CSV
row loop succeeds with exactly the non-blank records, in order. -/
theorem csvLoadRows_all_ok {T : Type} (model : FieldMap → Except String T)
    (headers : List String) (p : String) (f : List String → T) :
    ∀ (data : List (List String)) (n : Nat),
      (∀ r ∈ data, isBlankRow r = false → model (buildRowDict headers r) = .ok (f r)) →
      csvLoadRows model headers p data n =
        .ok ((data.filter (fun r => ! isBlankRow r)).map
          (fun r => ⟨p, f r⟩)) := by
  intro data
  induction data with
  | nil => intro n _; simp [csvLoadRows]
  | cons r rest ih =>
    intro n h
    by_cases hb : isBlankRow r = true
    · have step : csvLoadRows model headers p (r :: rest) n
          = csvLoadRows model headers p rest (n + 1) := by
        simp [csvLoadRows, hb]
      rw [step, ih (n + 1) (fun r' hr' => h r' (List.mem_cons_of_mem _ hr'))]
      simp [List.filter_cons, hb]
    · have hb' : isBlankRow r = false := by simpa using hb
      have step : csvLoadRows model headers p (r :: rest) n
          = (csvLoadRows model headers p rest (n + 1)).map
              (fun rows => ⟨p, f r⟩ :: rows) := by
        simp [csvLoadRows, hb, h r (List.mem_cons_self _ _) hb']
      rw [step, ih (n + 1) (fun r' hr' => h r' (List.mem_cons_of_mem _ hr'))]
      simp [Except.map, List.filter_cons, hb']

/-- If every line before `bad` is blank or decodes-and-validates, `bad`
is non-blank, decodes, and fails validation, the JSONL line loop aborts
at `bad` with a `LoadingError` carrying the physical line number (blanks
counted) and the validation error as cause; no rows are returned. -/
theorem jsonlLoadLines_append_error {J T : Type} (decode : String → Except String J)
    (validate : J → Except String T) (p : String) (bad : String)
    (rest : List String) (obj : J) (msg : String) :
    ∀ (pre : List String) (n m : Nat),
      (∀ l ∈ pre, pyStrip l = "" ∨
        ∃ j t, decode (pyStrip l) = .ok j ∧ validate j = .ok t) →
      pyStrip bad ≠ "" →
      decode (pyStrip bad) = .ok obj →
      validate obj = .error msg →
      m = n + pre.length →
      jsonlLoadLines decode validate p (pre ++ bad :: rest) n =
        .error (.loadingError s!"Error validating row {m} of {p}: {msg}"
          (some (.validationError msg))) := by
  intro pre
  induction pre with
  | nil =>
    intro n m _ hbad hdec hval hm
    subst hm
    simp [jsonlLoadLines, hbad, hdec, hval]
  | cons l pre ih =>
    intro n m h hbad hdec hval hm
    by_cases hb : pyStrip l = ""
    · have step : jsonlLoadLines decode validate p ((l :: pre) ++ bad :: rest) n
          = jsonlLoadLines decode validate p (pre ++ bad :: rest) (n + 1) := by
        simp [jsonlLoadLines, hb]
      rw [step]
      refine ih (n + 1) m (fun l' hl' => h l' (List.mem_cons_of_mem _ hl')) hbad hdec hval ?_
      simp only [List.length_cons] at hm
      omega
    · rcases h l (List.mem_cons_self _ _) with h1 | ⟨j, t, hj, ht⟩
      · exact absurd h1 hb
      · have step : jsonlLoadLines decode validate p ((l :: pre) ++ bad :: rest) n
            = (jsonlLoadLines decode validate p (pre ++ bad :: rest) (n + 1)).map
                (fun rows => ⟨p, t⟩ :: rows) := by
          simp [jsonlLoadLines, hb, hj, ht]
        rw [step, ih (n + 1) m (fun l' hl' => h l' (List.mem_cons_of_mem _ hl')) hbad hdec hval
          (by simp only [List.length_cons] at hm; omega)]
        rfl

/-- If every non-blank line decodes and validates (to `g` of the line),
the JSONL line loop succeeds with exactly the non-blank lines, in
order. -/
theorem jsonlLoadLines_all_ok {J T : Type} (decode : String → Except String J)
    (validate : J → Except String T) (p : String) (g : String → T) :
    ∀ (lines : List String) (n : Nat),
      (∀ l ∈ lines, pyStrip l ≠ "" →
        ∃ j, decode (pyStrip l) = .ok j ∧ validate j = .ok (g l)) →
      jsonlLoadLines decode validate p lines n =
        .ok ((lines.filter (fun l => ! (pyStrip l = "" : Bool))).map
          (fun l => ⟨p, g l⟩)) := by
  intro lines
  induction lines with
  | nil => intro n _; simp [jsonlLoadLines]
  | cons l rest ih =>
    intro n h
    by_cases hb : pyStrip l = ""
    · have step : jsonlLoadLines decode validate p (l :: rest) n
          = jsonlLoadLines decode validate p rest (n + 1) := by
        simp [jsonlLoadLines, hb]
      rw [step, ih (n + 1) (fun l' hl' => h l' (List.mem_cons_of_mem _ hl'))]
      simp [List.filter_cons, hb]
    · rcases h l (List.mem_cons_self _ _) hb with ⟨j, hj, ht⟩
      have step : jsonlLoadLines decode validate p (l :: rest) n
          = (jsonlLoadLines decode validate p rest (n + 1)).map
              (fun rows => ⟨p, g l⟩ :: rows) := by
        simp [jsonlLoadLines, hb, hj, ht]
      rw [step, ih (n + 1) (fun l' hl' => h l' (List.mem_cons_of_mem _ hl'))]
      simp [Except.map, List.filter_cons, hb]

/-! ## Claim theorems -/

/-- C1: for CSV and JSONL files alike, the first decoded unit that fails
schema validation aborts the whole load with a `LoadingError` whose
message carries the 1-based physical row/line number (the counter runs
over every physical record, so blanks before the failure are counted;
CSV numbering starts at 2 below the header, JSONL at 1) and the file
path, and whose `original_exception` is the underlying validation
error; the result is the error alone — no partial collection of the
previously validated rows. -/
theorem spec_c1 :
    (∀ (T : Type) (model : FieldMap → Except String T) (p : String)
        (headers : List String) (pre : List (List String)) (bad : List String)
        (rest : List (List String)) (msg : String),
      (∀ r ∈ pre, isBlankRow r = true ∨ ∃ t, model (buildRowDict headers r) = .ok t) →
      isBlankRow bad = false →
      model (buildRowDict headers bad) = .error msg →
      CsvLoader.load model p (.file (headers :: (pre ++ bad :: rest))) =
        .error (.loadingError s!"Error parsing row {2 + pre.length} in {p}: {msg}"
          (some (.validationError msg))))
  ∧ (∀ (J T : Type) (decode : String → Except String J)
        (validate : J → Except String T) (p : String)
        (pre : List String) (bad : String) (rest : List String) (obj : J) (msg : String),
      (∀ l ∈ pre, pyStrip l = "" ∨
        ∃ j t, decode (pyStrip l) = .ok j ∧ validate j = .ok t) →
      pyStrip bad ≠ "" →
      decode (pyStrip bad) = .ok obj →
      validate obj = .error msg →
      JsonlLoader.load decode validate p (.file (pre ++ bad :: rest)) =
        .error (.loadingError s!"Error validating row {1 + pre.length} of {p}: {msg}"
          (some (.validationError msg)))) := by
  constructor
  · intro T model p headers pre bad rest msg hpre hbad herr
    have h := csvLoadRows_append_error model headers p bad rest msg pre 2 (2 + pre.length)
      hpre hbad herr rfl
    simp [CsvLoader.load, h, Except.map]
  · intro J T decode validate p pre bad rest obj msg hpre hbad hdec hval
    have h := jsonlLoadLines_append_error decode validate p bad rest obj msg pre 1
      (1 + pre.length) hpre hbad hdec hval rfl
    simp [JsonlLoader.load, h, Except.map]

/-- Witness for C1: a CSV file whose fourth physical row (after a blank
row and a valid row) fails validation, and a JSONL file whose second
physical line (after a blank line) fails validation. -/
theorem spec_c1_witness :
    CsvLoader.load ageModel "f.csv"
        (.file [["name", "age"], ["", " "], ["Ann", "30"], ["Bob", "abc"], ["Joe", "25"]]) =
      .error (.loadingError "Error parsing row 4 in f.csv: not a number"
        (some (.validationError "not a number")))
    ∧ JsonlLoader.load (J := String) (T := Nat)
        (fun s => .ok s) (fun s => if s = "ok" then .ok 1 else .error "bad shape")
        "g.jsonl" (.file ["  ", "nope"]) =
      .error (.loadingError "Error validating row 2 of g.jsonl: bad shape"
        (some (.validationError "bad shape"))) := by
  constructor
  · exact spec_c1.1 Nat ageModel "f.csv" ["name", "age"] [["", " "], ["Ann", "30"]]
      ["Bob", "abc"] [["Joe", "25"]] "not a number"
      (by
        intro r hr
        simp only [List.mem_cons, List.mem_singleton] at hr
        rcases hr with h | h | h
        · subst h; left; rfl
        · subst h; right; exact ⟨30, rfl⟩
        · cases h)
      (by rfl) (by rfl)
  · exact spec_c1.2 String Nat (fun s => .ok s)
      (fun s => if s = "ok" then .ok 1 else .error "bad shape")
      "g.jsonl" ["  "] "nope" [] "nope" "bad shape"
      (by
        intro l hl
        simp only [List.mem_singleton] at hl
        subst hl; left; rfl)
      (by decide) (by rfl) (by rfl)

/-- C2: for a CSV file whose non-blank data records all validate, and a
JSONL file whose non-blank lines all decode and validate, `load`
returns exactly the non-blank records, in file order, each paired with
the file path; blank units are skipped silently. The third conjunct
shows that physical numbering still counts skipped blanks: with `k`
blank records before a failing one, the reported CSV row number is
`2 + k` (header on line 1, data numbering from 2). -/
theorem spec_c2 :
    (∀ (T : Type) (model : FieldMap → Except String T) (p : String)
        (headers : List String) (data : List (List String)) (f : List String → T),
      (∀ r ∈ data, isBlankRow r = false → model (buildRowDict headers r) = .ok (f r)) →
      CsvLoader.load model p (.file (headers :: data)) =
        .ok ⟨p, (data.filter (fun r => ! isBlankRow r)).map (fun r => ⟨p, f r⟩)⟩)
  ∧ (∀ (J T : Type) (decode : String → Except String J)
        (validate : J → Except String T) (p : String)
        (lines : List String) (g : String → T),
      (∀ l ∈ lines, pyStrip l ≠ "" →
        ∃ j, decode (pyStrip l) = .ok j ∧ validate j = .ok (g l)) →
      JsonlLoader.load decode validate p (.file lines) =
        .ok ⟨p, (lines.filter (fun l => ! (pyStrip l = "" : Bool))).map
          (fun l => ⟨p, g l⟩)⟩)
  ∧ (∀ (T : Type) (model : FieldMap → Except String T) (p : String)
        (headers : List String) (blanks : List (List String)) (bad : List String)
        (rest : List (List String)) (msg : String),
      (∀ r ∈ blanks, isBlankRow r = true) →
      isBlankRow bad = false →
      model (buildRowDict headers bad) = .error msg →
      CsvLoader.load model p (.file (headers :: (blanks ++ bad :: rest))) =
        .error (.loadingError s!"Error parsing row {2 + blanks.length} in {p}: {msg}"
          (some (.validationError msg)))) := by
  refine ⟨?_, ?_, ?_⟩
  · intro T model p headers data f h
    have hrows := csvLoadRows_all_ok model headers p f data 2 h
    simp [CsvLoader.load, hrows, Except.map]
  · intro J T decode validate p lines g h
    have hrows := jsonlLoadLines_all_ok decode validate p g lines 1 h
    simp [JsonlLoader.load, hrows, Except.map]
  · intro T model p headers blanks bad rest msg hblanks hbad herr
    have h := csvLoadRows_append_error model headers p bad rest msg blanks 2
      (2 + blanks.length) (fun r hr => Or.inl (hblanks r hr)) hbad herr rfl
    simp [CsvLoader.load, h, Except.map]

/-- Witness for C2: a CSV file with two valid records around a blank one
yields exactly those two rows in order; a CSV file with two blank
records before an invalid one reports row 4. -/
theorem spec_c2_witness :
    CsvLoader.load ageModel "f.csv"
        (.file [["name", "age"], ["Alice", "30"], ["", " "], ["Bob", "25"]]) =
      .ok ⟨"f.csv", [⟨"f.csv", 30⟩, ⟨"f.csv", 25⟩]⟩
    ∧ CsvLoader.load ageModel "f.csv"
        (.file [["name", "age"], [""], ["", ""], ["Eve", "zzz"]]) =
      .error (.loadingError "Error parsing row 4 in f.csv: not a number"
        (some (.validationError "not a number"))) := by
  constructor
  · exact spec_c2.1 Nat ageModel "f.csv" ["name", "age"]
      [["Alice", "30"], ["", " "], ["Bob", "25"]]
      (fun r => if r = ["Alice", "30"] then 30 else 25)
      (by
        intro r hr
        simp only [List.mem_cons, List.mem_singleton] at hr
        rcases hr with h | h | h | h
        · subst h; intro _; rfl
        · subst h; intro hb; exact absurd hb (by decide)
        · subst h; intro _; rfl
        · cases h)
  · exact spec_c2.2.2 Nat ageModel "f.csv" ["name", "age"] [[""], ["", ""]]
      ["Eve", "zzz"] [] "not a number"
      (by
        intro r hr
        simp only [List.mem_cons, List.mem_singleton] at hr
        rcases hr with h | h | h
        · subst h; rfl
        · subst h; rfl
        · cases h)
      (by rfl) (by rfl)

/-- C4: an empty (zero-byte) file has no physical lines and no CSV
records; the JSONL loader returns an empty collection, while the CSV
loader fails with a `LoadingError` reporting that no headers were
found. -/
theorem spec_c4 :
    (∀ (J T : Type) (decode : String → Except String J)
        (validate : J → Except String T) (p : String),
      JsonlLoader.load decode validate p (.file []) = .ok ⟨p, []⟩)
  ∧ (∀ (T : Type) (model : FieldMap → Except String T) (p : String),
      CsvLoader.load model p (.file []) =
        .error (.loadingError s!"No headers found in {p}" none)) := by
  constructor
  · intro J T decode validate p; rfl
  · intro T model p; rfl

/-- Counterexample for C3 as stated: `JsonLoader.load` on a path that
exists but is a directory raises Python's builtin `ValueError`
(`json_loader.py` line 69), not a `LoadingError`. -/
theorem spec_c3_counterexample :
    JsonLoader.load (J := String) (T := Nat) (fun s => .ok s) (fun _ => .ok 0)
        "d" .directory =
      .error (.valueError "Input path is directory path: d")
    ∧ (LoadException.valueError "Input path is directory path: d").isLoadingError
        = false := by
  exact ⟨rfl, rfl⟩

/-- C3 (amended): `CsvLoader.load` and `JsonlLoader.load` fail with a
`LoadingError` both on a missing path and on a directory;
`JsonLoader.load` fails with a `LoadingError` on a missing path but
raises `ValueError` on a directory; and every `LoadingError` wrapping a
lower-level decode or validation failure preserves that failure as its
`original_exception` alongside a human-readable message (shown here at
the JSON loader's two wrap sites; C1's theorem shows the same for the
CSV and JSONL row loops). -/
theorem spec_c3 :
    (∀ (T : Type) (model : FieldMap → Except String T) (p : String),
      CsvLoader.load model p .missing =
        .error (.loadingError s!"File not found: {p}" none)
      ∧ CsvLoader.load model p .directory =
        .error (.loadingError s!"Input path is a directory: {p}" none))
  ∧ (∀ (J T : Type) (decode : String → Except String J)
        (validate : J → Except String T) (p : String),
      JsonlLoader.load decode validate p .missing =
        .error (.loadingError s!"File not found: {p}" none)
      ∧ JsonlLoader.load decode validate p .directory =
        .error (.loadingError s!"Input path is a directory: {p}" none))
  ∧ (∀ (J T : Type) (decode : String → Except String J)
        (validate : J → Except String T) (p : String),
      JsonLoader.load decode validate p .missing =
        .error (.loadingError s!"File not found: {p}" none)
      ∧ JsonLoader.load decode validate p .directory =
        .error (.valueError s!"Input path is directory path: {p}"))
  ∧ (∀ (J T : Type) (decode : String → Except String J)
        (validate : J → Except String T) (p raw e : String),
      (decode raw = .error e →
        JsonLoader.load decode validate p (.file raw) =
          .error (.loadingError s!"Error parsing JSON file {p}: {e}"
            (some (.jsonDecodeError e))))
      ∧ ∀ (obj : J), decode raw = .ok obj → validate obj = .error e →
          JsonLoader.load decode validate p (.file raw) =
            .error (.loadingError s!"Error validating JSON file {p}: {e}"
              (some (.validationError e)))) := by
  refine ⟨?_, ?_, ?_, ?_⟩
  · intro T model p; exact ⟨rfl, rfl⟩
  · intro J T decode validate p; exact ⟨rfl, rfl⟩
  · intro J T decode validate p; exact ⟨rfl, rfl⟩
  · intro J T decode validate p raw e
    constructor
    · intro hd; simp [JsonLoader.load, hd]
    · intro obj hd hv; simp [JsonLoader.load, hd, hv]

/-- Witness for C3 (amended): the cause-preserving wrap conjuncts applied
to a concrete failing decode and a concrete failing validation. -/
theorem spec_c3_witness :
    JsonLoader.load (J := String) (T := Nat)
        (fun s => if s = "{}" then .ok s else .error "Expecting value")
        (fun _ => .ok 0) "a.json" (.file "oops") =
      .error (.loadingError "Error parsing JSON file a.json: Expecting value"
        (some (.jsonDecodeError "Expecting value")))
    ∧ JsonLoader.load (J := String) (T := Nat)
        (fun s => if s = "{}" then .ok s else .error "Expecting value")
        (fun _ => .error "field required")
        "b.json" (.file "{}") =
      .error (.loadingError "Error validating JSON file b.json: field required"
        (some (.validationError "field required"))) := by
  constructor
  · exact (spec_c3.2.2.2 String Nat
      (fun s => if s = "{}" then .ok s else .error "Expecting value")
      (fun _ => .ok 0) "a.json" "oops" "Expecting value").1 (by rfl)
  · exact (spec_c3.2.2.2 String Nat
      (fun s => if s = "{}" then .ok s else .error "Expecting value")
      (fun _ => .error "field required") "b.json" "{}" "field required").2
      "{}" (by rfl) (by rfl)

/-- The lenient per-file loop of `JsonsLoader.load` never aborts: it
returns exactly the files whose individual `JsonLoader.load` succeeded,
in order (on a file input the JSON loader can only fail with a
`LoadingError`, which the loop catches and skips). -/
theorem jsonsLoadFiles_eq_filterMap {J T : Type} (decode : String → Except String J)
    (validate : J → Except String T) :
    ∀ (files : List (String × String)),
      jsonsLoadFiles decode validate files =
        .ok (files.filterMap
          (fun nf => (JsonLoader.load decode validate nf.1 (.file nf.2)).toOption)) := by
  intro files
  induction files with
  | nil => rfl
  | cons nf rest ih =>
    cases hd : decode nf.2 with
    | error e =>
      simp [jsonsLoadFiles, JsonLoader.load, hd, ih, Except.toOption]
    | ok j =>
      cases hv : validate j with
      | error e =>
        simp [jsonsLoadFiles, JsonLoader.load, hd, hv, ih, Except.toOption]
      | ok t =>
        simp [jsonsLoadFiles, JsonLoader.load, hd, hv, ih, Except.toOption, Except.map]

/-- C5: on an existing directory, `JsonsLoader.load` returns a collection
keyed by the directory path containing, in enumeration order, exactly the
per-file results of the immediate children whose suffix matches `.json`
case-insensitively and whose individual load succeeded; a child whose
load raises a `LoadingError` is skipped without aborting, and
non-matching children never contribute rows. -/
theorem spec_c5 :
    ∀ (J T : Type) (decode : String → Except String J)
      (validate : J → Except String T) (d : String) (children : List FsNode),
      JsonsLoader.load decode validate d (.dirT children) =
        .ok ⟨d, (PathSearcher.search_specific_extension_paths_from_directory_path
            (.dirT children) ".json").filterMap
          (fun nf => (JsonLoader.load decode validate nf.1 (.file nf.2)).toOption)⟩ := by
  intro J T decode validate d children
  simp [JsonsLoader.load, jsonsLoadFiles_eq_filterMap, Except.map]

example :
    JsonsLoader.load (J := String) (T := Nat)
      (fun s => if s = "bad" then .error "Expecting value" else .ok s)
      (fun s => if s = "1" then .ok 1 else .error "field required")
      "dir"
      (.dirT [.fileN "a.json" "1", .fileN "skip.txt" "1", .fileN "b.JSON" "bad",
        .dirN "sub" [.fileN "c.json" "1"], .fileN "d.json" "1"]) =
    .ok ⟨"dir", [⟨"a.json", 1⟩, ⟨"d.json", 1⟩]⟩ := by decide

/-- The `row_dict` loop, started at header index `i` with dict `d`
already built: when the remaining headers are distinct and none is
already a key of `d`, it appends exactly the pairs of remaining headers
with the cells from position `i` on, stopping where the row runs out. -/
theorem buildRowDict_go_eq (rowData : List String) :
    ∀ (hs : List String) (i : Nat) (d : FieldMap),
      (∀ h ∈ hs, d.any (fun kv => kv.1 = h) = false) →
      hs.Nodup →
      (List.enumFrom i hs).foldl
        (fun d ih =>
          if ih.1 < rowData.length then dictInsert d ih.2 (rowData.getD ih.1 "") else d)
        d
      = d ++ hs.zip (rowData.drop i) := by
  intro hs
  induction hs with
  | nil => intro i d _ _; simp
  | cons h hs ih =>
    intro i d hfresh hnd
    have hndtail : hs.Nodup := (List.nodup_cons.mp hnd).2
    have hnotmem : h ∉ hs := (List.nodup_cons.mp hnd).1
    by_cases hlt : i < rowData.length
    · have hany : d.any (fun kv => kv.1 = h) = false := hfresh h (List.mem_cons_self _ _)
      have hins : dictInsert d h (rowData.getD i "") = d ++ [(h, rowData.getD i "")] := by
        simp [dictInsert, hany]
      have hfresh' : ∀ h' ∈ hs,
          (d ++ [(h, rowData.getD i "")]).any (fun kv => kv.1 = h') = false := by
        intro h' hh'
        have h1 : d.any (fun kv => kv.1 = h') = false :=
          hfresh h' (List.mem_cons_of_mem _ hh')
        have hne : h ≠ h' := fun he => hnotmem (he ▸ hh')
        simp [List.any_append, h1, hne]
      have hstep : (List.enumFrom i (h :: hs)).foldl
            (fun d ih =>
              if ih.1 < rowData.length then dictInsert d ih.2 (rowData.getD ih.1 "") else d)
            d
          = (List.enumFrom (i + 1) hs).foldl
            (fun d ih =>
              if ih.1 < rowData.length then dictInsert d ih.2 (rowData.getD ih.1 "") else d)
            (dictInsert d h (rowData.getD i "")) := by
        simp only [List.enumFrom, List.foldl_cons, if_pos hlt]
      rw [hstep, hins, ih (i + 1) _ hfresh' hndtail,
        List.getD_eq_getElem rowData "" hlt, List.drop_eq_getElem_cons hlt]
      simp only [List.zip_cons_cons, List.append_assoc, List.singleton_append]
    · have hdrop : rowData.drop i = [] := List.drop_eq_nil_of_le (by omega)
      have hdrop' : rowData.drop (i + 1) = [] := List.drop_eq_nil_of_le (by omega)
      have hstep : (List.enumFrom i (h :: hs)).foldl
            (fun d ih =>
              if ih.1 < rowData.length then dictInsert d ih.2 (rowData.getD ih.1 "") else d)
            d
          = (List.enumFrom (i + 1) hs).foldl
            (fun d ih =>
              if ih.1 < rowData.length then dictInsert d ih.2 (rowData.getD ih.1 "") else d)
            d := by
        simp [List.enumFrom, hlt]
      rw [hstep, ih (i + 1) _ (fun h' hh' => hfresh h' (List.mem_cons_of_mem _ hh')) hndtail]
      simp [hdrop, hdrop', List.zip_nil_right]

/-- C10: with distinct headers, the field map a CSV data row is validated
against is exactly the headers zipped with the row's cells — cells beyond
the headers are dropped (zip truncates at the shorter list), and when the
row is shorter than the headers the trailing headers are absent from the
map altogether rather than bound to empty strings (whether the schema
then fills a default is the validator collaborator's business). -/
theorem spec_c10 :
    ∀ (headers rowData : List String), headers.Nodup →
      buildRowDict headers rowData = headers.zip rowData := by
  intro headers rowData hnd
  have h := buildRowDict_go_eq rowData headers 0 [] (by intro h _; rfl) hnd
  simpa [buildRowDict, List.enum_eq_enumFrom] using h

/-- Witness for C10: two distinct headers against a longer row (third cell
dropped) and against a shorter row (second header absent, not empty). -/
theorem spec_c10_witness :
    (["name", "age"] : List String).Nodup
    ∧ buildRowDict ["name", "age"] ["Alice", "30", "extra"]
        = ["name", "age"].zip ["Alice", "30", "extra"]
    ∧ buildRowDict ["name", "age"] ["Alice"]
        = ["name", "age"].zip ["Alice"] := by
  refine ⟨by decide, ?_, ?_⟩
  · exact spec_c10 ["name", "age"] ["Alice", "30", "extra"] (by decide)
  · exact spec_c10 ["name", "age"] ["Alice"] (by decide)

/-- C8: the path-search operations are total functions that return an
empty list when the directory does not exist (they never raise);
every non-empty extension is normalized to carry a leading dot; a path
is returned exactly when it is a **file among the directory's immediate
children** (a file inside a child directory is never returned, because
child directories are filtered out without being descended into) whose
suffix matches one of the normalized extensions case-insensitively. -/
theorem spec_c8 :
    (∀ (extensions : List String),
      PathSearcher.search_specific_extensions_paths_from_directory_path
        .missing extensions = []
      ∧ PathSearcher.search_file_paths_from_directory_path .missing = [])
  ∧ (∀ (extension : String), extension ≠ "" →
      pyStartsWith (normalizeExtension extension) "." = true)
  ∧ (∀ (children : List FsNode) (extensions : List String) (name raw : String),
      (name, raw) ∈ PathSearcher.search_specific_extensions_paths_from_directory_path
          (.dirT children) extensions →
        FsNode.fileN name raw ∈ children
        ∧ ∃ e ∈ extensions, pyLower (pathSuffix name) = pyLower (normalizeExtension e))
  ∧ (∀ (children : List FsNode) (extensions : List String) (name raw : String),
      FsNode.fileN name raw ∈ children →
      (∃ e ∈ extensions, pyLower (pathSuffix name) = pyLower (normalizeExtension e)) →
      (name, raw) ∈ PathSearcher.search_specific_extensions_paths_from_directory_path
          (.dirT children) extensions) := by
  refine ⟨?_, ?_, ?_, ?_⟩
  · intro extensions; exact ⟨rfl, rfl⟩
  · intro extension hne
    by_cases hdot : pyStartsWith extension "." = true
    · have : normalizeExtension extension = extension := by
        simp [normalizeExtension, hdot]
      rw [this]; exact hdot
    · have : normalizeExtension extension = "." ++ extension := by
        simp [normalizeExtension, hne, hdot]
      rw [this]
      simp [pyStartsWith, String.data_append, List.take]
  · intro children extensions name raw hmem
    simp only [PathSearcher.search_specific_extensions_paths_from_directory_path,
      PathSearcher.search_file_paths_from_directory_path, List.mem_filter,
      List.mem_filterMap, List.any_eq_true, List.mem_map, decide_eq_true_eq] at hmem
    obtain ⟨⟨c, hc, hsome⟩, ext, ⟨e, he, hnorm⟩, hmatch⟩ := hmem
    cases c with
    | fileN n r =>
      simp only [Option.some.injEq, Prod.mk.injEq] at hsome
      obtain ⟨hn, hr⟩ := hsome
      subst hn; subst hr
      exact ⟨hc, e, he, by rw [hnorm]; exact hmatch⟩
    | dirN n cs => simp at hsome
  · intro children extensions name raw hmem ⟨e, he, hmatch⟩
    simp only [PathSearcher.search_specific_extensions_paths_from_directory_path,
      PathSearcher.search_file_paths_from_directory_path, List.mem_filter,
      List.mem_filterMap, List.any_eq_true, List.mem_map, decide_eq_true_eq]
    exact ⟨⟨FsNode.fileN name raw, hmem, rfl⟩, normalizeExtension e, ⟨e, he, rfl⟩, hmatch⟩

/-- Witness for C8: the extension `"TXT"` (no dot, upper case) is
normalized to a dotted form and matches `a.txt` among the immediate
children; the file `b.txt` inside the subdirectory `sub` is absent from
the search result. -/
theorem spec_c8_witness :
    pyStartsWith (normalizeExtension "TXT") "." = true
    ∧ (FsNode.fileN "a.txt" "x" ∈
        [FsNode.fileN "a.txt" "x", FsNode.dirN "sub" [FsNode.fileN "b.txt" "y"],
          FsNode.fileN "c.md" "z"]
      ∧ ∃ e ∈ ["TXT"], pyLower (pathSuffix "a.txt") = pyLower (normalizeExtension e)) := by
  constructor
  · exact spec_c8.2.1 "TXT" (by decide)
  · exact spec_c8.2.2.1
      [FsNode.fileN "a.txt" "x", FsNode.dirN "sub" [FsNode.fileN "b.txt" "y"],
        FsNode.fileN "c.md" "z"]
      ["TXT"] "a.txt" "x" (by decide)

example :
    PathSearcher.search_specific_extensions_paths_from_directory_path
      (.dirT [FsNode.fileN "a.txt" "x", FsNode.dirN "sub" [FsNode.fileN "b.txt" "y"],
        FsNode.fileN "c.md" "z"]) ["TXT"] = [("a.txt", "x")] := by decide

/-- Every row the CSV row loop produces carries the file path `p`. -/
theorem csvLoadRows_paths {T : Type} (model : FieldMap → Except String T)
    (headers : List String) (p : String) :
    ∀ (data : List (List String)) (n : Nat) (rows : List (CsvRowLoadResult T)),
      csvLoadRows model headers p data n = .ok rows →
      ∀ row ∈ rows, row.path = p := by
  intro data
  induction data with
  | nil =>
    intro n rows h row hrow
    simp only [csvLoadRows, Except.ok.injEq] at h
    subst h
    cases hrow
  | cons r rest ih =>
    intro n rows h row hrow
    by_cases hb : isBlankRow r = true
    · rw [show csvLoadRows model headers p (r :: rest) n
          = csvLoadRows model headers p rest (n + 1) by simp [csvLoadRows, hb]] at h
      exact ih (n + 1) rows h row hrow
    · cases hm : model (buildRowDict headers r) with
      | error e =>
        rw [show csvLoadRows model headers p (r :: rest) n
            = .error (.loadingError s!"Error parsing row {n} in {p}: {e}"
                (some (.validationError e))) by simp [csvLoadRows, hb, hm]] at h
        cases h
      | ok inst =>
        rw [show csvLoadRows model headers p (r :: rest) n
            = (csvLoadRows model headers p rest (n + 1)).map
                (fun rows => ⟨p, inst⟩ :: rows) by simp [csvLoadRows, hb, hm]] at h
        cases hrec : csvLoadRows model headers p rest (n + 1) with
        | error e => rw [hrec] at h; cases h
        | ok rows' =>
          rw [hrec] at h
          simp only [Except.map, Except.ok.injEq] at h
          subst h
          rcases List.mem_cons.mp hrow with h1 | h1
          · subst h1; rfl
          · exact ih (n + 1) rows' hrec row h1

/-- A successful `CsvLoader.load` returns a collection keyed by the file
path whose rows each carry that same path. -/
theorem CsvLoader.load_ok_paths {T : Type} (model : FieldMap → Except String T)
    (p : String) (input : FileInput (List (List String))) (r : CsvLoadResult T)
    (h : CsvLoader.load model p input = .ok r) :
    r.path = p ∧ ∀ row ∈ r.value, row.path = p := by
  cases input with
  | missing => simp [CsvLoader.load] at h
  | directory => simp [CsvLoader.load] at h
  | file records =>
    cases records with
    | nil => simp [CsvLoader.load] at h
    | cons headers data =>
      cases hrows : csvLoadRows model headers p data 2 with
      | error e => simp [CsvLoader.load, hrows, Except.map] at h
      | ok rows =>
        cases r with
        | mk rpath rvalue =>
          simp only [CsvLoader.load, hrows, Except.map, Except.ok.injEq,
            CsvLoadResult.mk.injEq] at h
          obtain ⟨h1, h2⟩ := h
          subst h1; subst h2
          exact ⟨rfl, csvLoadRows_paths model headers p data 2 rows hrows⟩

/-- A pair drawn from `(l.map f).zip l` is `(f a, a)` for some `a ∈ l`. -/
theorem mem_zip_map_self {α β : Type} (f : α → β) :
    ∀ (l : List α) (pr : β × α), pr ∈ (l.map f).zip l → pr.1 = f pr.2 ∧ pr.2 ∈ l := by
  intro l
  induction l with
  | nil => intro pr hpr; cases hpr
  | cons a l ih =>
    intro pr hpr
    simp only [List.map_cons, List.zip_cons_cons, List.mem_cons] at hpr
    rcases hpr with h1 | h1
    · subst h1; exact ⟨rfl, List.mem_cons_self _ _⟩
    · obtain ⟨h2, h3⟩ := ih pr h1
      exact ⟨h2, List.mem_cons_of_mem _ h3⟩

/-- Inserting a key that is not yet present appends it at the end. -/
theorem dictInsert_not_mem {α : Type} (d : PyDict α) (k : String) (v : α)
    (h : k ∉ dictKeys d) : dictInsert d k v = d ++ [(k, v)] := by
  have hany : d.any (fun kv => kv.1 = k) = false := by
    by_contra hx
    rw [Bool.not_eq_false, List.any_eq_true] at hx
    obtain ⟨kv, hkv, hk⟩ := hx
    simp only [decide_eq_true_eq] at hk
    exact h (hk ▸ List.mem_map_of_mem Prod.fst hkv)
  simp [dictInsert, hany]

/-- Looking up a freshly appended key finds its value. -/
theorem dictLookup_append_self {α : Type} (k : String) (v : α) :
    ∀ (d : PyDict α), k ∉ dictKeys d → dictLookup (d ++ [(k, v)]) k = some v := by
  intro d
  induction d with
  | nil => intro _; simp [dictLookup]
  | cons kv rest ih =>
    intro h
    have hne : kv.1 ≠ k := by
      intro he
      exact h (he ▸ List.mem_map_of_mem Prod.fst (List.mem_cons_self _ _))
    have hrest : k ∉ dictKeys rest := by
      intro hm
      exact h (List.mem_cons_of_mem _ hm)
    simp [dictLookup, hne, ih hrest]

/-- The keys of a dumped record are the keys `model_dump` produced. -/
theorem dictKeys_dumpDict {T V : Type} (dump : T → PyDict V) (t : T) :
    dictKeys (dumpDict dump t) = dictKeys (dump t) := by
  simp [dictKeys, dumpDict, List.map_map, Function.comp]

/-- Counterexample for C6 as stated: a successfully loaded (header-only,
hence empty) CSV collection exported with `include_path_as_column=true`
yields the early-return empty DataFrame with **no** `path` column, so
the export does not always produce one additional column. -/
theorem spec_c6_counterexample :
    CsvLoader.load ageModel "h.csv" (.file [["name", "age"]]) = .ok ⟨"h.csv", []⟩
    ∧ (CsvLoadResult.to_polars (fun n : Nat => [("age", n)])
        (⟨"h.csv", []⟩ : CsvLoadResult Nat) true).columns = [] := by
  exact ⟨by rfl, by rfl⟩

/-- C6 (amended): for every loaded collection **with at least one row**,
whose schema has no field itself named `path`, exporting with
`include_path_as_column=true` produces exactly one additional column
named `path`, whose value in each row equals the string form of that
row's own source path. For a single-file CSV collection every row
carries the file's path, so the broadcast of the collection path that
`CsvLoadResult.to_polars` performs coincides with each row's own path;
the shared `DataframeExportable` exporter writes each row's own path
directly. -/
theorem spec_c6 :
    (∀ (T V : Type) (model : FieldMap → Except String T) (p : String)
        (input : FileInput (List (List String))) (r : CsvLoadResult T)
        (dump : T → PyDict V),
      CsvLoader.load model p input = .ok r →
      r.value ≠ [] →
      (∀ t, "path" ∉ dictKeys (dump t)) →
      (CsvLoadResult.to_polars dump r true).columns
          = (CsvLoadResult.to_polars dump r false).columns ++ ["path"]
      ∧ ∀ pr ∈ (CsvLoadResult.to_polars dump r true).records.zip r.value,
          dictLookup pr.1 "path" = some (.ofStr pr.2.path))
  ∧ (∀ (T V : Type) (x : DataframeExportable T) (dump : T → PyDict V),
      x.value ≠ [] →
      (∀ t, "path" ∉ dictKeys (dump t)) →
      (DataframeExportable.to_polars dump x true).columns
          = (DataframeExportable.to_polars dump x false).columns ++ ["path"]
      ∧ ∀ pr ∈ (DataframeExportable.to_polars dump x true).records.zip x.value,
          dictLookup pr.1 "path" = some (.ofStr pr.2.path)) := by
  constructor
  · intro T V model p input r dump hload hne hdump
    obtain ⟨hrpath, hrows⟩ := CsvLoader.load_ok_paths model p input r hload
    obtain ⟨v, vs, hv⟩ := List.exists_cons_of_ne_nil hne
    have hemp : r.value.isEmpty = false := by rw [hv]; rfl
    have htrue : (CsvLoadResult.to_polars dump r true).records
        = r.value.map (fun row =>
            dictInsert (dumpDict dump row.row) "path" (.ofStr r.path)) := by
      simp [CsvLoadResult.to_polars, hemp, DataFrame.withColumnLit, List.map_map,
        Function.comp]
    have hfalse : (CsvLoadResult.to_polars dump r false).records
        = r.value.map (fun row => dumpDict dump row.row) := by
      simp [CsvLoadResult.to_polars, hemp]
    constructor
    · rw [DataFrame.columns, DataFrame.columns, htrue, hfalse, hv]
      simp only [List.map_cons, List.headD_cons]
      rw [dictInsert_not_mem _ _ _ (by rw [dictKeys_dumpDict]; exact hdump v.row)]
      simp [dictKeys]
    · intro pr hpr
      rw [htrue] at hpr
      obtain ⟨h1, h2⟩ := mem_zip_map_self _ r.value pr hpr
      rw [h1, dictInsert_not_mem _ _ _ (by rw [dictKeys_dumpDict]; exact hdump pr.2.row),
        dictLookup_append_self _ _ _ (by rw [dictKeys_dumpDict]; exact hdump pr.2.row),
        hrows pr.2 h2, hrpath]
  · intro T V x dump hne hdump
    obtain ⟨v, vs, hv⟩ := List.exists_cons_of_ne_nil hne
    have hemp : x.value.isEmpty = false := by rw [hv]; rfl
    have htrue : (DataframeExportable.to_polars dump x true).records
        = x.value.map (fun v =>
            dictInsert (dumpDict dump v.value) "path" (.ofStr v.path)) := by
      simp [DataframeExportable.to_polars, DataframeExportable.to_dicts, hemp]
    have hfalse : (DataframeExportable.to_polars dump x false).records
        = x.value.map (fun v => dumpDict dump v.value) := by
      simp [DataframeExportable.to_polars, DataframeExportable.to_dicts, hemp]
    constructor
    · rw [DataFrame.columns, DataFrame.columns, htrue, hfalse, hv]
      simp only [List.map_cons, List.headD_cons]
      rw [dictInsert_not_mem _ _ _ (by rw [dictKeys_dumpDict]; exact hdump v.value)]
      simp [dictKeys]
    · intro pr hpr
      rw [htrue] at hpr
      obtain ⟨h1, h2⟩ := mem_zip_map_self _ x.value pr hpr
      rw [h1, dictInsert_not_mem _ _ _ (by rw [dictKeys_dumpDict]; exact hdump pr.2.value),
        dictLookup_append_self _ _ _ (by rw [dictKeys_dumpDict]; exact hdump pr.2.value)]

/-- Witness for C6 (amended): a one-row loaded CSV collection gains
exactly the `path` column, and so does a two-row shared-exporter
collection whose rows carry different paths. -/
theorem spec_c6_witness :
    ((CsvLoadResult.to_polars (fun n : Nat => [("age", n)])
        (⟨"f.csv", [⟨"f.csv", 25⟩]⟩ : CsvLoadResult Nat) true).columns
      = (CsvLoadResult.to_polars (fun n : Nat => [("age", n)])
          (⟨"f.csv", [⟨"f.csv", 25⟩]⟩ : CsvLoadResult Nat) false).columns ++ ["path"]
     ∧ ∀ pr ∈ (CsvLoadResult.to_polars (fun n : Nat => [("age", n)])
          (⟨"f.csv", [⟨"f.csv", 25⟩]⟩ : CsvLoadResult Nat) true).records.zip
            [(⟨"f.csv", 25⟩ : CsvRowLoadResult Nat)],
        dictLookup pr.1 "path" = some (.ofStr pr.2.path))
    ∧ ((DataframeExportable.to_polars (fun n : Nat => [("age", n)])
        (⟨"dir", [⟨"a.json", 1⟩, ⟨"b.json", 2⟩]⟩ : DataframeExportable Nat) true).columns
      = (DataframeExportable.to_polars (fun n : Nat => [("age", n)])
          (⟨"dir", [⟨"a.json", 1⟩, ⟨"b.json", 2⟩]⟩ : DataframeExportable Nat) false).columns
        ++ ["path"]
     ∧ ∀ pr ∈ (DataframeExportable.to_polars (fun n : Nat => [("age", n)])
          (⟨"dir", [⟨"a.json", 1⟩, ⟨"b.json", 2⟩]⟩ : DataframeExportable Nat) true).records.zip
            [(⟨"a.json", 1⟩ : ProtocolRow Nat), ⟨"b.json", 2⟩],
        dictLookup pr.1 "path" = some (.ofStr pr.2.path)) := by
  constructor
  · exact spec_c6.1 Nat Nat ageModel "f.csv" (.file [["name", "age"], ["Bob", "25"]])
      ⟨"f.csv", [⟨"f.csv", 25⟩]⟩ (fun n => [("age", n)])
      (by rfl) (by decide) (by intro t; show ("path" : String) ∉ ["age"]; decide)
  · exact spec_c6.2 Nat Nat ⟨"dir", [⟨"a.json", 1⟩, ⟨"b.json", 2⟩]⟩
      (fun n => [("age", n)]) (by decide) (by intro t; show ("path" : String) ∉ ["age"]; decide)

/-- C7: with `include_path_as_column=false` the exported table has
exactly one record per collection row, and exporting an empty collection
returns the empty DataFrame — zero rows and zero columns — rather than
an error (shown for both the CSV exporter and the shared mixin
exporter). -/
theorem spec_c7 :
    (∀ (T V : Type) (dump : T → PyDict V) (r : CsvLoadResult T),
      (CsvLoadResult.to_polars dump r false).height = r.value.length
      ∧ (r.value = [] →
          (CsvLoadResult.to_polars dump r false).height = 0
          ∧ (CsvLoadResult.to_polars dump r false).columns = []))
  ∧ (∀ (T V : Type) (dump : T → PyDict V) (x : DataframeExportable T),
      (DataframeExportable.to_polars dump x false).height = x.value.length
      ∧ (x.value = [] →
          (DataframeExportable.to_polars dump x false).height = 0
          ∧ (DataframeExportable.to_polars dump x false).columns = [])) := by
  constructor
  · intro T V dump r
    cases r with
    | mk rp rv =>
      by_cases hv : rv = []
      · subst hv
        exact ⟨rfl, fun _ => ⟨rfl, rfl⟩⟩
      · have hemp : rv.isEmpty = false := by
          cases hr : rv with
          | nil => exact absurd hr hv
          | cons a l => rfl
        constructor
        · simp [CsvLoadResult.to_polars, hemp, DataFrame.height]
        · intro h; exact absurd h hv
  · intro T V dump x
    cases x with
    | mk xp xv =>
      by_cases hv : xv = []
      · subst hv
        exact ⟨rfl, fun _ => ⟨rfl, rfl⟩⟩
      · have hemp : xv.isEmpty = false := by
          cases hr : xv with
          | nil => exact absurd hr hv
          | cons a l => rfl
        constructor
        · simp [DataframeExportable.to_polars, DataframeExportable.to_dicts, hemp,
            DataFrame.height]
        · intro h; exact absurd h hv

/-- Witness for C7: a two-row collection exports to a two-record table,
and an empty collection exports to the zero-row zero-column table. -/
theorem spec_c7_witness :
    (CsvLoadResult.to_polars (fun n : Nat => [("age", n)])
        (⟨"f.csv", [⟨"f.csv", 30⟩, ⟨"f.csv", 25⟩]⟩ : CsvLoadResult Nat) false).height = 2
    ∧ (CsvLoadResult.to_polars (fun n : Nat => [("age", n)])
        (⟨"e.csv", []⟩ : CsvLoadResult Nat) false).height = 0
    ∧ (CsvLoadResult.to_polars (fun n : Nat => [("age", n)])
        (⟨"e.csv", []⟩ : CsvLoadResult Nat) false).columns = [] := by
  refine ⟨?_, ?_, ?_⟩
  · exact (spec_c7.1 Nat Nat (fun n => [("age", n)])
      ⟨"f.csv", [⟨"f.csv", 30⟩, ⟨"f.csv", 25⟩]⟩).1
  · exact ((spec_c7.1 Nat Nat (fun n => [("age", n)]) ⟨"e.csv", []⟩).2 rfl).1
  · exact ((spec_c7.1 Nat Nat (fun n => [("age", n)]) ⟨"e.csv", []⟩).2 rfl).2

/-- C9: the CSV loader's `with`-scoped handle is closed on every exit
path, but the JSON and JSONL loaders open their handles with a bare
`p.open(...)` and no `close()`, `with`, or `finally` exists on any path,
so once the checks pass the handle-event trace contains an open with no
matching close — the handle is not closed before the call returns or
raises. -/
theorem spec_c9 :
    (∀ (input : FileInput (List (List String))),
      closesAllHandles (csvLoadEvents input) = true)
    ∧ jsonLoadEvents (.file "raw") = [.opened]
    ∧ jsonlLoadEvents (.file ["line"]) = [.opened]
    ∧ closesAllHandles [ResourceEvent.opened] = false := by
  refine ⟨?_, rfl, rfl, rfl⟩
  intro input
  cases input <;> rfl
